import Mathlib

/-!
Verification development for the MailChannels email-API client
(`src/client.ts`, `src/errors.ts`, `src/types.ts`).

The TypeScript source is shallowly embedded below:
* JSON values are modelled by the mutual inductives `JsonValue`,
  `JsonArray`, `JsonFields`; JavaScript objects are association lists of
  fields with first-match lookup (keys produced by `JSON.parse` are
  unique).
* JavaScript `String.prototype.trim` is modelled by `jsTrim` over the
  character list (ASCII whitespace, which covers every string the client
  manipulates).
* Optional / possibly-absent string fields are `Option String`; `none`
  models `undefined` (and, where a runtime type check treats them alike,
  any non-string value).
* The fetch transport, `JSON.parse` and `Date.parse` are the injected
  runtime facilities of the client; they are passed to the embedded
  functions as explicit parameters.
-/

/-- JavaScript whitespace recognised by `String.prototype.trim`
(ASCII subset; the client never manipulates non-ASCII whitespace). -/
def isJsWhitespace (c : Char) : Bool :=
  c == ' ' || c == '\t' || c == '\n' || c == '\r' || c == '\x0b' || c == '\x0c'

/-- Character-list form of `String.prototype.trim`: drop leading and
trailing whitespace. -/
def jsTrimList (l : List Char) : List Char :=
  ((l.dropWhile isJsWhitespace).reverse.dropWhile isJsWhitespace).reverse

/-- Embedding of JavaScript `s.trim()`. -/
def jsTrim (s : String) : String :=
  ⟨jsTrimList s.data⟩

/-- Embedding of `hasText` (client.ts line 43) on a string: non-empty
after trimming. -/
def hasTextStr (s : String) : Bool :=
  !(jsTrimList s.data).isEmpty

/-- `hasText` on a possibly-absent value (`none` models `undefined` or a
non-string value, for which `typeof value === "string"` fails). -/
def hasTextOpt : Option String → Bool
  | some s => hasTextStr s
  | none => false

mutual
/-- JSON values, as produced by `JSON.parse`. -/
inductive JsonValue where
  | null
  | bool (b : Bool)
  | num (n : Int)
  | str (s : String)
  | arr (elems : JsonArray)
  | obj (fields : JsonFields)

/-- Elements of a JSON array, in order. -/
inductive JsonArray where
  | nil
  | cons (head : JsonValue) (tail : JsonArray)

/-- Fields of a JSON object, in insertion order. -/
inductive JsonFields where
  | nil
  | cons (key : String) (value : JsonValue) (tail : JsonFields)
end

mutual
/-- Structural size of a JSON value (termination measure for the
message-extraction recursion). -/
def sizeJson : JsonValue → Nat
  | .null => 1
  | .bool _ => 1
  | .num _ => 1
  | .str _ => 1
  | .arr xs => 1 + sizeJsonArray xs
  | .obj fs => 1 + sizeJsonFields fs

/-- Structural size of a JSON array. -/
def sizeJsonArray : JsonArray → Nat
  | .nil => 1
  | .cons h t => 1 + sizeJson h + sizeJsonArray t

/-- Structural size of a JSON field list. -/
def sizeJsonFields : JsonFields → Nat
  | .nil => 1
  | .cons _ v t => 1 + sizeJson v + sizeJsonFields t
end

/-- JavaScript property read `body[key]` on a plain object: first binding
with the given key (`JSON.parse` objects have unique keys). -/
def lookupField : JsonFields → String → Option JsonValue
  | .nil, _ => none
  | .cons k v rest, key => if k = key then some v else lookupField rest key

/-- Number of fields of a JSON object: `Object.keys(body).length`. -/
def countFields : JsonFields → Nat
  | .nil => 0
  | .cons _ _ rest => countFields rest + 1

/-- Candidate keys searched at the top level of an error body
(client.ts line 132). -/
def candidateKeys : List String :=
  ["message", "error_description", "detail", "error"]

/-- First candidate-key hit: the first of `candidateKeys` whose value is a
string that is non-blank after trimming, returned trimmed
(client.ts lines 133-138). -/
def firstCandidateMessage (fields : JsonFields) : Option String :=
  candidateKeys.findSome? fun key =>
    match lookupField fields key with
    | some (JsonValue.str s) => if hasTextStr s then some (jsTrim s) else none
    | _ => none

/-- Walk of the `errors` array (client.ts lines 152-162), with `recur`
standing for the recursive object search: a non-blank string entry wins
trimmed; an object entry is searched recursively; every other entry
(blank string, null, scalar, array — an array entry is searched as an
object with numeric keys and never yields a hit) is skipped. -/
def walkErrorEntries (recur : JsonFields → Option String) : JsonArray → Option String
  | .nil => none
  | .cons entry rest =>
    match entry with
    | JsonValue.str s =>
      if hasTextStr s then some (jsTrim s) else walkErrorEntries recur rest
    | JsonValue.obj fs =>
      match recur fs with
      | some m => some m
      | none => walkErrorEntries recur rest
    | _ => walkErrorEntries recur rest

/-- Fuel-indexed form of `extractMessageFromBody` (client.ts lines
129-166).  The source recursion descends into values stored inside the
field list, which is not structural; the fuel makes the recursion
structural, and `extractF_stable` below shows any fuel of at least
`sizeJsonFields fields` gives the same answer, so `extractMessageFromBody`
(which supplies such a fuel) computes the source's fixpoint. -/
def extractF : Nat → JsonFields → Option String
  | 0, _ => none
  | fuel + 1, fields =>
    match firstCandidateMessage fields with
    | some m => some m
    | none =>
      match (match lookupField fields "error" with
             | some (JsonValue.obj fs) => extractF fuel fs
             | _ => none) with
      | some m => some m
      | none =>
        match lookupField fields "errors" with
        | some (JsonValue.arr entries) =>
          walkErrorEntries (fun fs => extractF fuel fs) entries
        | _ => none

/-- Embedding of `extractMessageFromBody` (client.ts lines 129-166):
candidate keys first, then a nested `error` object, then the `errors`
array walked in order.  `extractMessageFromBody_eq` below recovers the
source's recurrence. -/
def extractMessageFromBody (fields : JsonFields) : Option String :=
  extractF (sizeJsonFields fields) fields

/-- The nested-`error`-object phase of `extractMessageFromBody`
(client.ts lines 140-148).  In the source a non-null `error` value of
object type is searched recursively; an array value would be searched as
an object with numeric keys and can never produce a hit, so it is mapped
to `none` directly. -/
def nestedErrorMessage (fields : JsonFields) : Option String :=
  match lookupField fields "error" with
  | some (JsonValue.obj fs) => extractMessageFromBody fs
  | _ => none

/-- The `errors`-array phase of `extractMessageFromBody`
(client.ts lines 150-163). -/
def errorsArrayMessage (fields : JsonFields) : Option String :=
  match lookupField fields "errors" with
  | some (JsonValue.arr entries) => walkErrorEntries extractMessageFromBody entries
  | _ => none

/-- The generic fallback message (client.ts lines 106-108).  `statusText`
is `none` for `undefined`; the caller only ever passes a trimmed
non-blank text, but the embedding keeps the source's truthiness test. -/
def fallbackMessage (status : Nat) (statusText : Option String) : String :=
  match statusText with
  | some st =>
    if st ≠ "" then
      "MailChannels request failed with " ++ toString status ++ " " ++ st
    else
      "MailChannels request failed with status " ++ toString status
  | none => "MailChannels request failed with status " ++ toString status

/-- Embedding of `deriveErrorMessage` (client.ts lines 100-124).
A parsed body that is a non-null object is searched with
`extractMessageFromBody`; an array body is searched as an object with
numeric keys and never yields a hit, so it is mapped to `none` directly;
scalar and null bodies fail the source's truthy-object test. -/
def deriveErrorMessage (status : Nat) (statusText : Option String)
    (parsedBody : Option JsonValue) (rawText : String) : String :=
  let fromJson : Option String :=
    match parsedBody with
    | some (JsonValue.obj fs) => extractMessageFromBody fs
    | _ => none
  match fromJson with
  | some m => m
  | none =>
    if hasTextStr rawText then jsTrim rawText else fallbackMessage status statusText

/-- Value of the longest leading run of ASCII decimal digits, `none` when
there is no leading digit (after which `Number.parseInt` yields `NaN`). -/
def leadingDigitsValue (l : List Char) : Option Nat :=
  let ds := l.takeWhile Char.isDigit
  if ds.isEmpty then none
  else some (ds.foldl (fun acc c => acc * 10 + (c.toNat - 48)) 0)

/-- Embedding of JavaScript `Number.parseInt(s, 10)`: skip leading
whitespace, read an optional sign, then the longest run of decimal
digits; `none` models `NaN`. -/
def jsParseInt10 (s : String) : Option Int :=
  match s.data.dropWhile isJsWhitespace with
  | '-' :: rest => (leadingDigitsValue rest).map fun n => -(n : Int)
  | '+' :: rest => (leadingDigitsValue rest).map fun n => (n : Int)
  | l => (leadingDigitsValue l).map fun n => (n : Int)

/-- Embedding of `parseRetryAfterSeconds` (client.ts lines 74-95).
`dateParse` models `Date.parse` (milliseconds since epoch, `none` for
`NaN`); `now` models `Date.now()`; `headerValue` is
`headers.get("retry-after")` with `none` for an absent header. -/
def parseRetryAfterSeconds (dateParse : String → Option Int) (now : Int)
    (headerValue : Option String) : Option Int :=
  match headerValue with
  | none => none
  | some v =>
    if v = "" then none
    else
      match jsParseInt10 v with
      | some n => some (max n 0)
      | none =>
        match dateParse v with
        | some t =>
          let deltaMs := t - now
          if 0 < deltaMs then some ((deltaMs + 999) / 1000) else some 0
        | none => none

/-- `EmailAddress` (types.ts): the `email` field is modelled as a string;
a missing or non-string runtime value is modelled by `""`, which the
validator treats the same way. -/
structure EmailAddress where
  email : String
  name : Option String := none
  deriving DecidableEq, Repr

/-- `ContentBlock` (types.ts).  `value` is `none` when the runtime value
is not a string (the validator's `typeof` check). -/
structure ContentBlock where
  type : String
  value : Option String := none
  deriving DecidableEq, Repr

/-- `Attachment` (types.ts).  Each field is `none` when absent or not a
string at runtime (both fail the validator the same way). -/
structure Attachment where
  type : Option String := none
  filename : Option String := none
  content : Option String := none
  deriving DecidableEq, Repr

/-- `Personalization` (types.ts).  `toRecipients` embeds the source's
`to` field (`to` is reserved in Lean). -/
structure Personalization where
  toRecipients : List EmailAddress
  cc : Option (List EmailAddress) := none
  bcc : Option (List EmailAddress) := none
  subject : Option String := none
  headers : Option (List (String × String)) := none
  dkim_domain : Option String := none
  dkim_private_key : Option String := none
  dkim_selector : Option String := none
  dynamic_template_data : Option String := none
  deriving DecidableEq, Repr

/-- `SendEmailRequest` (types.ts).  `fromAddr` embeds the source's `from`
field (`from` is reserved in Lean); `extra` carries the open index
signature's unknown keys, passed through verbatim. -/
structure SendEmailRequest where
  personalizations : List Personalization
  fromAddr : EmailAddress
  reply_to : Option EmailAddress := none
  subject : Option String := none
  content : List ContentBlock
  headers : Option (List (String × String)) := none
  attachments : Option (List Attachment) := none
  dkim_domain : Option String := none
  dkim_selector : Option String := none
  dkim_private_key : Option String := none
  extra : List (String × String) := []
  deriving DecidableEq, Repr

/-- Client-side DKIM defaults (`DkimConfig`, types.ts). -/
structure DkimConfig where
  domain : String
  selector : String
  privateKey : String
  deriving DecidableEq, Repr

/-- Embedding of `selectDkimValue` (client.ts lines 588-593): the
candidate trimmed when it is a non-blank string, else the fallback. -/
def selectDkimValue (value : Option String) (fallback : String) : String :=
  match value with
  | some s => if hasTextStr s then jsTrim s else fallback
  | none => fallback

/-- Embedding of `applyDkimDefaults` (client.ts lines 538-578): resolve
the body-level triple against the client config, then each
personalization's triple against the resolved body-level triple; all
other fields are spread through unchanged. -/
def applyDkimDefaults (dkim : DkimConfig) (payload : SendEmailRequest) :
    SendEmailRequest :=
  let globalDomain := selectDkimValue payload.dkim_domain dkim.domain
  let globalSelector := selectDkimValue payload.dkim_selector dkim.selector
  let globalPrivateKey := selectDkimValue payload.dkim_private_key dkim.privateKey
  let personalizations := payload.personalizations.map fun personalization =>
    { personalization with
      dkim_domain := some (selectDkimValue personalization.dkim_domain globalDomain)
      dkim_selector := some (selectDkimValue personalization.dkim_selector globalSelector)
      dkim_private_key :=
        some (selectDkimValue personalization.dkim_private_key globalPrivateKey) }
  { payload with
    personalizations := personalizations
    dkim_domain := some globalDomain
    dkim_selector := some globalSelector
    dkim_private_key := some globalPrivateKey }

/-- Run an index-reporting check over a list, stopping at the first
failure (the source's `for (const [index, x] of xs.entries())` loops). -/
def validateEachFrom (check : Nat → α → Except String Unit) :
    Nat → List α → Except String Unit
  | _, [] => Except.ok ()
  | i, a :: rest => do
    check i a
    validateEachFrom check (i + 1) rest

/-- Embedding of `validateEmailAddress` (client.ts lines 264-272). -/
def validateEmailAddress (address : EmailAddress) (path : String) :
    Except String Unit :=
  if hasTextStr address.email then Except.ok ()
  else Except.error (path ++ ".email must be a non-empty string.")

/-- Embedding of `validatePersonalization` (client.ts lines 225-255). -/
def validatePersonalization (personalization : Personalization) (index : Nat) :
    Except String Unit := do
  if personalization.toRecipients.isEmpty then
    Except.error ("personalizations[" ++ toString index ++
      "].to must contain at least one recipient.")
  else Except.ok ()
  validateEachFrom (fun j recipient => validateEmailAddress recipient
    ("personalizations[" ++ toString index ++ "].to[" ++ toString j ++ "]"))
    0 personalization.toRecipients
  validateEachFrom (fun j recipient => validateEmailAddress recipient
    ("personalizations[" ++ toString index ++ "].cc[" ++ toString j ++ "]"))
    0 (personalization.cc.getD [])
  validateEachFrom (fun j recipient => validateEmailAddress recipient
    ("personalizations[" ++ toString index ++ "].bcc[" ++ toString j ++ "]"))
    0 (personalization.bcc.getD [])

/-- Embedding of `validateContentBlock` (client.ts lines 281-293). -/
def validateContentBlock (block : ContentBlock) (index : Nat) :
    Except String Unit := do
  if hasTextStr block.type then Except.ok ()
  else
    Except.error ("content[" ++ toString index ++ "].type must be a non-empty string.")
  match block.value with
  | some _ => Except.ok ()
  | none =>
    Except.error ("content[" ++ toString index ++ "].value must be a string.")

/-- Embedding of `validateAttachment` (client.ts lines 302-320).  The
source tests `!attachment.type || typeof attachment.type !== "string"`:
an absent or non-string value (`none`) and the empty string are rejected;
any other string — including a whitespace-only one — is accepted. -/
def validateAttachment (attachment : Attachment) (index : Nat) :
    Except String Unit := do
  match attachment.type with
  | some t =>
    if t = "" then
      Except.error ("attachments[" ++ toString index ++
        "].type must be a non-empty string.")
    else Except.ok ()
  | none =>
    Except.error ("attachments[" ++ toString index ++
      "].type must be a non-empty string.")
  match attachment.filename with
  | some f =>
    if f = "" then
      Except.error ("attachments[" ++ toString index ++
        "].filename must be a non-empty string.")
    else Except.ok ()
  | none =>
    Except.error ("attachments[" ++ toString index ++
      "].filename must be a non-empty string.")
  match attachment.content with
  | some c =>
    if c = "" then
      Except.error ("attachments[" ++ toString index ++
        "].content must be a base64 string.")
    else Except.ok ()
  | none =>
    Except.error ("attachments[" ++ toString index ++
      "].content must be a base64 string.")

/-- Embedding of `validateDkimFields` (client.ts lines 329-341). -/
def validateDkimFields (domain selector privateKey : Option String)
    (path : String) : Except String Unit := do
  if hasTextOpt domain then Except.ok ()
  else Except.error (path ++ ".dkim_domain must be a non-empty string.")
  if hasTextOpt selector then Except.ok ()
  else Except.error (path ++ ".dkim_selector must be a non-empty string.")
  if hasTextOpt privateKey then Except.ok ()
  else Except.error (path ++ ".dkim_private_key must be a non-empty string.")

/-- Embedding of `validateSendRequest` (client.ts lines 174-216); the
checks run in source order, chained explicitly so each stage is a
syntactic `>>=` step, and the first failure wins. -/
def validateSendRequest (payload : SendEmailRequest) : Except String Unit :=
  (if payload.personalizations.isEmpty then
    Except.error "`personalizations` must contain at least one recipient block."
  else Except.ok ()) >>= fun _ =>
  validateEachFrom (fun i p => validatePersonalization p i)
    0 payload.personalizations >>= fun _ =>
  validateEmailAddress payload.fromAddr "from" >>= fun _ =>
  (match payload.reply_to with
  | some address => validateEmailAddress address "reply_to"
  | none => Except.ok ()) >>= fun _ =>
  (if payload.content.isEmpty then
    Except.error "`content` must include at least one content block."
  else Except.ok ()) >>= fun _ =>
  validateEachFrom (fun i b => validateContentBlock b i) 0 payload.content >>=
    fun _ =>
  (match payload.attachments with
  | some attachments =>
    validateEachFrom (fun i a => validateAttachment a i) 0 attachments
  | none => Except.ok ()) >>= fun _ =>
  validateDkimFields payload.dkim_domain payload.dkim_selector
    payload.dkim_private_key "request body" >>= fun _ =>
  validateEachFrom
    (fun i p => validateDkimFields p.dkim_domain p.dkim_selector
      p.dkim_private_key ("personalizations[" ++ toString i ++ "]"))
    0 payload.personalizations

def DEFAULT_BASE_URL : String := "https://api.mailchannels.net/tx/v1"

def SEND_PATH : String := "send"

/-- Does the string end in a slash? -/
def endsWithSlash (s : String) : Bool :=
  match s.data.getLast? with
  | some c => c == '/'
  | none => false

/-- Embedding of `normalizeBaseUrl` (client.ts lines 349-352):
`(baseUrl ?? DEFAULT_BASE_URL).trim().replace(/\/?$/, "/")`.
The regex `/\/?$/` without the global flag replaces its leftmost match:
scanning left to right, `\/?$` can only match at the very end — on the
final character when it is a slash (replaced by a slash, leaving the
string unchanged), otherwise as the empty string at the end (inserting a
slash).  Hence: a trimmed input ending in a slash is returned as is, and
any other input gets one slash appended. -/
def normalizeBaseUrl (baseUrl : Option String) : String :=
  let trimmed := jsTrim (baseUrl.getD DEFAULT_BASE_URL)
  if endsWithSlash trimmed then trimmed else trimmed ++ "/"

/-- Constructor options (`MailChannelsClientOptions`, types.ts).
`apiKey` is `""` when absent (both are falsy and rejected identically);
`hasFetch` states whether `options.fetchImplementation ?? globalThis.fetch`
is a function. -/
structure MailChannelsClientOptions where
  apiKey : String := ""
  dkim : Option DkimConfig := none
  baseUrl : Option String := none
  defaultHeaders : Option (List (String × String)) := none
  hasFetch : Bool := true
  deriving DecidableEq, Repr

/-- The state a successfully constructed `MailChannelsClient` holds
(client.ts lines 362-371). -/
structure ClientState where
  apiKey : String
  baseUrl : String
  defaultHeaders : List (String × String)
  dkim : DkimConfig
  deriving DecidableEq, Repr

/-- Embedding of the `MailChannelsClient` constructor (client.ts lines
379-430).  Note the source stores `options.apiKey` verbatim while it
trims every DKIM field. -/
def constructClient (options : MailChannelsClientOptions) :
    Except String ClientState :=
  (if options.apiKey = "" ∨ jsTrim options.apiKey = "" then
    Except.error "`apiKey` must be a non-empty string."
  else Except.ok ()) >>= fun _ =>
  match options.dkim with
  | none =>
    Except.error "`dkim` configuration is required when constructing MailChannelsClient."
  | some dkim =>
    (if hasTextStr dkim.domain then Except.ok ()
    else Except.error "`dkim.domain` must be a non-empty string.") >>= fun _ =>
    (if hasTextStr dkim.selector then Except.ok ()
    else Except.error "`dkim.selector` must be a non-empty string.") >>= fun _ =>
    (if hasTextStr dkim.privateKey then Except.ok ()
    else
      Except.error
        "`dkim.privateKey` must be a non-empty string containing the Base64-encoded key.") >>=
      fun _ =>
    (if options.hasFetch then Except.ok ()
    else
      Except.error
        "No Fetch API implementation available. Provide one via options.fetchImplementation.") >>=
      fun _ =>
    Except.ok
      { apiKey := options.apiKey
        baseUrl := normalizeBaseUrl options.baseUrl
        defaultHeaders := options.defaultHeaders.getD []
        dkim :=
          { domain := jsTrim dkim.domain
            selector := jsTrim dkim.selector
            privateKey := jsTrim dkim.privateKey } }

/-- JavaScript object-literal property write: overwrite the value in
place when the (case-sensitive) key exists — object keys are unique, so
the first binding is the only one — else append the entry. -/
def jsObjSet : List (String × String) → String → String → List (String × String)
  | [], k, v => [(k, v)]
  | (k', v') :: rest, k, v =>
    if k' = k then (k, v) :: rest else (k', v') :: jsObjSet rest k v

/-- JavaScript object property read: first (unique) binding. -/
def jsObjGet (m : List (String × String)) (k : String) : Option String :=
  (m.find? fun p => p.1 = k).map Prod.snd

/-- Embedding of the header construction in `sendEmail` (client.ts lines
457-465): the fixed `content-type` and `X-Api-Key` entries, then the
spread of `defaultHeaders` (later writes win key collisions), then the
`Idempotency-Key` write when `options.idempotencyKey` is truthy. -/
def buildRequestHeaders (apiKey : String)
    (defaultHeaders : List (String × String)) (idempotencyKey : Option String) :
    List (String × String) :=
  let base := [("content-type", "application/json"), ("X-Api-Key", apiKey)]
  let merged := defaultHeaders.foldl (fun m kv => jsObjSet m kv.1 kv.2) base
  match idempotencyKey with
  | some k => if k ≠ "" then jsObjSet merged "Idempotency-Key" k else merged
  | none => merged

/-- `SendEmailOptions` (types.ts).  `signal` is an opaque token passed
through to the transport. -/
structure SendEmailOptions where
  dryRun : Bool := false
  signal : Option String := none
  idempotencyKey : Option String := none
  deriving DecidableEq, Repr

/-- The request handed to the injected fetch transport.  The body is the
DKIM-merged payload itself (its JSON serialization is outside the claims'
scope). -/
structure TransportRequest where
  url : String
  method : String
  headers : List (String × String)
  bodyPayload : SendEmailRequest
  signal : Option String
  deriving DecidableEq, Repr

/-- The response produced by the transport: status, status text, headers
(as sent by the server) and the full body text. -/
structure TransportResponse where
  status : Nat
  statusText : String
  headers : List (String × String)
  bodyText : String
  deriving DecidableEq, Repr

/-- Case-insensitive response-header lookup (`Headers.get`). -/
def headersGetCI (headers : List (String × String)) (key : String) :
    Option String :=
  (headers.find? fun p => p.1.toLower = key.toLower).map Prod.snd

/-- Is the first list a leading segment of the second? -/
def startsWithChars : List Char → List Char → Bool
  | [], _ => true
  | _ :: _, [] => false
  | a :: as, b :: bs => a == b && startsWithChars as bs

/-- `String.prototype.includes`: is the needle a contiguous substring? -/
def jsonTokenSearch (needle : List Char) : List Char → Bool
  | [] => needle.isEmpty
  | c :: rest => startsWithChars needle (c :: rest) || jsonTokenSearch needle rest

/-- Does the content type declare JSON?
(`contentType?.includes("application/json")`). -/
def declaresJson : Option String → Bool
  | some contentType => jsonTokenSearch "application/json".data contentType.data
  | none => false

/-- Either half of `details`: the parsed JSON body, or the raw text. -/
inductive ResponseDetails where
  | json (v : JsonValue)
  | text (s : String)

/-- The data half of a success envelope (`SendEmailResponse.data`). -/
inductive ResponseData where
  | json (v : JsonValue)
  | text (s : String)

/-- Success envelope (`SendEmailResponse`, types.ts). -/
structure SendEmailResponse where
  status : Nat
  id : Option String
  data : Option ResponseData

/-- `REQUEST_ID_HEADER_CANDIDATES` (client.ts lines 21-26). -/
def requestIdHeaderCandidates : List String :=
  ["x-request-id", "x-mc-request-id", "mc-request-id", "cf-ray"]

/-- Embedding of `extractRequestId` (client.ts lines 61-69): first
candidate header whose value is non-blank, trimmed. -/
def extractRequestId (headers : List (String × String)) : Option String :=
  requestIdHeaderCandidates.findSome? fun header =>
    match headersGetCI headers header with
    | some value => if hasTextStr value then some (jsTrim value) else none
    | none => none

/-- Embedding of `serializeHeaders` (client.ts lines 50-56): lower-cased
snapshot of the response headers (later duplicates overwrite). -/
def serializeHeaders (headers : List (String × String)) :
    List (String × String) :=
  headers.foldl (fun m p => jsObjSet m p.1.toLower p.2) []

/-- The metadata carried by a thrown `MailChannelsError` (errors.ts). -/
structure MailChannelsErrorData where
  message : String
  status : Nat
  statusText : Option String
  requestId : Option String
  retryAfterSeconds : Option Int
  headers : List (String × String)
  details : Option ResponseDetails

/-- Outcome of `sendEmail`: the synchronous validation `TypeError`, or the
thrown `MailChannelsError`. -/
inductive SendFailure where
  | validation (message : String)
  | api (e : MailChannelsErrorData)

/-- Embedding of the error construction in `sendEmail` (client.ts lines
486-506). -/
def buildApiError (dateParse : String → Option Int) (now : Int)
    (resp : TransportResponse) (parsedBody : Option JsonValue) :
    MailChannelsErrorData :=
  let statusText : Option String :=
    if hasTextStr resp.statusText then some (jsTrim resp.statusText) else none
  let details : Option ResponseDetails :=
    match parsedBody with
    | some JsonValue.null =>
      -- `parsedBody ?? ...`: a parsed JSON `null` is nullish and falls
      -- through to the raw-text fallback.
      if resp.bodyText ≠ "" then some (ResponseDetails.text resp.bodyText) else none
    | some v => some (ResponseDetails.json v)
    | none =>
      if resp.bodyText ≠ "" then some (ResponseDetails.text resp.bodyText) else none
  { message := deriveErrorMessage resp.status statusText parsedBody resp.bodyText
    status := resp.status
    statusText := statusText
    requestId := extractRequestId resp.headers
    retryAfterSeconds :=
      parseRetryAfterSeconds dateParse now (headersGetCI resp.headers "retry-after")
    headers := serializeHeaders resp.headers
    details := details }

/-- Embedding of the success-path body interpretation in `sendEmail`
(client.ts lines 508-527).  `rfl`-checkable on concrete inputs.
The source tests `typeof bodyAsRecord.id === "string"` and then uses the
value's truthiness (`responseId ? …`), so an empty-string `id` is treated
as absent for both the `id` field and the key-count threshold. -/
def buildSuccessResult (status : Nat) (parsedBody : Option JsonValue)
    (rawText : String) : SendEmailResponse :=
  match parsedBody with
  | some (JsonValue.obj fields) =>
    let responseId : Option String :=
      match lookupField fields "id" with
      | some (JsonValue.str s) => some s
      | _ => none
    let idTruthy : Bool :=
      match responseId with
      | some s => s ≠ ""
      | none => false
    let data : Option ResponseData :=
      if countFields fields > (if idTruthy then 1 else 0) then
        some (ResponseData.json (JsonValue.obj fields))
      else none
    { status := status
      id := if idTruthy then responseId else none
      data := data }
  | some (JsonValue.arr elems) =>
    -- An array body passes the source's truthy-object test; `id` is
    -- `undefined` on it and `Object.keys` counts its elements.
    { status := status
      id := none
      data :=
        match elems with
        | JsonArray.nil => none
        | JsonArray.cons _ _ => some (ResponseData.json (JsonValue.arr elems)) }
  | some _ =>
    -- Scalar or null JSON fails the truthy-object test; fall back to the
    -- raw-text branch.
    { status := status
      id := none
      data := if rawText ≠ "" then some (ResponseData.text rawText) else none }
  | none =>
    { status := status
      id := none
      data := if rawText ≠ "" then some (ResponseData.text rawText) else none }

/-- Embedding of `sendEmail` (client.ts lines 445-530).  `jsonParse`
models `JSON.parse` (`none` for a parse failure), `dateParse` models
`Date.parse`, `now` models `Date.now()`, and `transport` is the injected
fetch implementation.  The second component counts how many times the
transport is invoked during the call. -/
def sendEmail (jsonParse : String → Option JsonValue)
    (dateParse : String → Option Int) (now : Int) (client : ClientState)
    (payload : SendEmailRequest) (options : SendEmailOptions)
    (transport : TransportRequest → TransportResponse) :
    Except SendFailure SendEmailResponse × Nat :=
  let normalizedPayload := applyDkimDefaults client.dkim payload
  match validateSendRequest normalizedPayload with
  | Except.error e => (Except.error (SendFailure.validation e), 0)
  | Except.ok _ =>
    let requestUrl := client.baseUrl ++ SEND_PATH ++
      (if options.dryRun then "?dry-run=true" else "")
    let headers := buildRequestHeaders client.apiKey client.defaultHeaders
      options.idempotencyKey
    let resp := transport
      { url := requestUrl
        method := "POST"
        headers := headers
        bodyPayload := normalizedPayload
        signal := options.signal }
    let contentType := headersGetCI resp.headers "content-type"
    let parsedBody : Option JsonValue :=
      if resp.bodyText ≠ "" && declaresJson contentType then
        jsonParse resp.bodyText
      else none
    if 200 ≤ resp.status ∧ resp.status ≤ 299 then
      (Except.ok (buildSuccessResult resp.status parsedBody resp.bodyText), 1)
    else
      (Except.error (SendFailure.api (buildApiError dateParse now resp parsedBody)), 1)

/-- Number of consecutive slashes at the end of a string. -/
def trailingSlashCount (s : String) : Nat :=
  (s.data.reverse.takeWhile fun c => c == '/').length

/-- The two built-in header entries (client.ts lines 457-461). -/
def builtinHeaders (apiKey : String) : List (String × String) :=
  [("content-type", "application/json"), ("X-Api-Key", apiKey)]

/-- A concrete stand-in for `Date.parse` used to instantiate theorems:
two known date strings, everything else unparseable. -/
def demoDateParse (s : String) : Option Int :=
  if s = "future-date" then some 46000
  else if s = "past-date" then some (-5) else none

/-- The error body
`\x7b"errors":["   ", \x7b"extra":true\x7d, \x7b"error":\x7b"error_description":"final message"\x7d\x7d]\x7d`
from the spec's precedence example. -/
def errorsWalkExampleBody : JsonValue :=
  JsonValue.obj (.cons "errors" (JsonValue.arr
    (.cons (JsonValue.str "   ")
      (.cons (JsonValue.obj (.cons "extra" (JsonValue.bool true) .nil))
        (.cons (JsonValue.obj (.cons "error"
          (JsonValue.obj (.cons "error_description"
            (JsonValue.str "final message") .nil)) .nil))
          .nil)))) .nil)

/-- The error body `\x7b"errors":[]\x7d` from the spec's fallback example. -/
def emptyErrorsExampleBody : JsonValue :=
  JsonValue.obj (.cons "errors" (JsonValue.arr .nil) .nil)

/-- Is the JSON value a string? (`typeof v === "string"`). -/
def isStringValue : JsonValue → Bool
  | JsonValue.str _ => true
  | _ => false

/-- The success body `\x7b"id":""\x7d`. -/
def emptyIdBody : JsonFields := .cons "id" (JsonValue.str "") .nil

/-- The spec's per-field resolution rule, stated from its words: the
result is the own value trimmed when that value is a non-blank string,
else the fallback. -/
def resolvesDkim (own : Option String) (fallback : String)
    (result : Option String) : Prop :=
  (∀ s, own = some s → hasTextStr s = true → result = some (jsTrim s)) ∧
  (∀ s, own = some s → hasTextStr s = false → result = some fallback) ∧
  (own = none → result = some fallback)

/-- Client DKIM defaults used to instantiate theorems (mirrors the test
fixture after constructor trimming). -/
def demoDkim : DkimConfig :=
  { domain := "example.com"
    selector := "default-selector"
    privateKey := "default-private-key" }

/-- A personalization with no DKIM overrides. -/
def demoPz0 : Personalization :=
  { toRecipients := [{ email := "primary@example.com", name := some "Primary" }]
    cc := some [{ email := "copy@example.com" }]
    bcc := some [{ email := "hidden@example.com" }] }

/-- A personalization with whitespace-padded DKIM overrides. -/
def demoPz1 : Personalization :=
  { toRecipients := [{ email := "override@example.com" }]
    dkim_domain := some " override.example.com "
    dkim_selector := some " override-selector "
    dkim_private_key := some " override-private-key " }

/-- A structurally valid payload (mirrors the test fixture). -/
def demoPayload : SendEmailRequest :=
  { personalizations := [demoPz0, demoPz1]
    fromAddr := { email := "sender@example.com", name := some "Sender" }
    reply_to := some { email := "reply@example.com" }
    subject := some "Test message"
    content := [{ type := "text/plain", value := some "Plain content" },
                { type := "text/html", value := some "<p>HTML content</p>" }]
    attachments := some [{ type := some "text/plain"
                           filename := some "note.txt"
                           content := some "ZmlsZS1jb250ZW50" }] }

/-- `demoPz1` after the merge: overrides trimmed. -/
def demoMergedPz1 : Personalization :=
  { toRecipients := [{ email := "override@example.com" }]
    dkim_domain := some "override.example.com"
    dkim_selector := some "override-selector"
    dkim_private_key := some "override-private-key" }

/-- A constructed client state mirroring the test fixture. -/
def demoClient : ClientState :=
  { apiKey := "api-key"
    baseUrl := "https://api.mailchannels.net/tx/v1/"
    defaultHeaders := [("X-Custom", "value")]
    dkim := demoDkim }

/-- `demoPayload` with its recipients removed: structurally invalid. -/
def demoInvalidPayload : SendEmailRequest :=
  { demoPayload with personalizations := [] }

/-- A transport returning a fixed JSON success response. -/
def demoTransport (_ : TransportRequest) : TransportResponse :=
  { status := 202
    statusText := "Accepted"
    headers := [("content-type", "application/json")]
    bodyText := "\x7b\"id\":\"message-id\",\"ok\":true\x7d" }

/-- A `JSON.parse` stand-in for `demoTransport`'s body. -/
def demoJsonParse (_ : String) : Option JsonValue :=
  some (JsonValue.obj (.cons "id" (JsonValue.str "message-id")
    (.cons "ok" (JsonValue.bool true) .nil)))

/-- `demoPayload` carrying an attachment whose MIME type is the
whitespace-only string `" "`. -/
def wsAttachmentPayload : SendEmailRequest :=
  { demoPayload with
    attachments := some [{ type := some " "
                           filename := some "note.txt"
                           content := some "ZmlsZS1jb250ZW50" }] }

/-- The constructor options used to instantiate `c7_api_key_stored_verbatim`. -/
def demoOptions : MailChannelsClientOptions :=
  { apiKey := " secret-key "
    dkim := some { domain := " example.com ", selector := " sel ",
                   privateKey := " pk " } }

/-- The state `constructClient demoOptions` produces: padded API key kept,
DKIM triple trimmed. -/
def demoConstructed : ClientState :=
  { apiKey := " secret-key "
    baseUrl := "https://api.mailchannels.net/tx/v1/"
    defaultHeaders := []
    dkim := { domain := "example.com", selector := "sel", privateKey := "pk" } }

/-! ## Theorems -/

theorem sizeJson_lt_of_lookupField (fields : JsonFields) (key : String)
    (v : JsonValue) (h : lookupField fields key = some v) :
    sizeJson v < sizeJsonFields fields := by
  match fields with
  | .nil => simp [lookupField] at h
  | .cons k w rest =>
    by_cases hk : k = key
    · simp [lookupField, hk] at h
      subst h
      simp [sizeJsonFields]
      omega
    · simp [lookupField, hk] at h
      have := sizeJson_lt_of_lookupField rest key v h
      simp [sizeJsonFields]
      omega

theorem sizeJsonFields_pos (fields : JsonFields) : 0 < sizeJsonFields fields := by
  cases fields <;> simp [sizeJsonFields]

/-- The walk only depends on the recursive search's values on field lists
smaller than the array. -/
theorem walkErrorEntries_congr (bound : Nat) (f g : JsonFields → Option String)
    (hfg : ∀ fs : JsonFields, sizeJsonFields fs < bound → f fs = g fs)
    (entries : JsonArray) (hsz : sizeJsonArray entries ≤ bound) :
    walkErrorEntries f entries = walkErrorEntries g entries := by
  match entries with
  | .nil => rfl
  | .cons entry rest =>
    have hrest : sizeJsonArray rest ≤ bound := by
      have hp : 0 < sizeJson entry := by cases entry <;> simp [sizeJson]
      simp [sizeJsonArray] at hsz
      omega
    have ih := walkErrorEntries_congr bound f g hfg rest hrest
    cases entry with
    | obj fs =>
      have hfs : sizeJsonFields fs < bound := by
        simp [sizeJsonArray, sizeJson] at hsz
        omega
      simp only [walkErrorEntries, hfg fs hfs]
      cases g fs with
      | some m => rfl
      | none => exact ih
    | str s =>
      simp only [walkErrorEntries]
      cases hasTextStr s with
      | true => simp
      | false => simp [ih]
    | null => exact ih
    | bool _ => exact ih
    | num _ => exact ih
    | arr _ => exact ih

/-- The fuel is irrelevant once it reaches the size of the field list. -/
theorem extractF_stable (n : Nat) :
    ∀ (fields : JsonFields) (f1 f2 : Nat),
      sizeJsonFields fields ≤ n → sizeJsonFields fields ≤ f1 →
      sizeJsonFields fields ≤ f2 →
      extractF f1 fields = extractF f2 fields := by
  induction n using Nat.strong_induction_on with
  | _ n ih =>
    intro fields f1 f2 hn h1 h2
    have hpos := sizeJsonFields_pos fields
    obtain ⟨a, rfl⟩ : ∃ a, f1 = a + 1 := ⟨f1 - 1, by omega⟩
    obtain ⟨b, rfl⟩ : ∃ b, f2 = b + 1 := ⟨f2 - 1, by omega⟩
    simp only [extractF]
    cases firstCandidateMessage fields with
    | some m => rfl
    | none =>
      have hnested :
          (match lookupField fields "error" with
           | some (JsonValue.obj fs) => extractF a fs
           | _ => none) =
          (match lookupField fields "error" with
           | some (JsonValue.obj fs) => extractF b fs
           | _ => none) := by
        cases hl : lookupField fields "error" with
        | none => rfl
        | some v =>
          cases v with
          | obj fs =>
            have hsz := sizeJson_lt_of_lookupField fields "error" _ hl
            simp [sizeJson] at hsz
            exact ih (sizeJsonFields fs) (by omega) fs a b (by omega) (by omega)
              (by omega)
          | null => rfl
          | bool _ => rfl
          | num _ => rfl
          | str _ => rfl
          | arr _ => rfl
      rw [hnested]
      cases (match lookupField fields "error" with
             | some (JsonValue.obj fs) => extractF b fs
             | _ => none) with
      | some m => rfl
      | none =>
        cases hl : lookupField fields "errors" with
        | none => rfl
        | some v =>
          cases v with
          | arr entries =>
            have hsz := sizeJson_lt_of_lookupField fields "errors" _ hl
            simp [sizeJson] at hsz
            refine walkErrorEntries_congr (sizeJsonArray entries)
              _ _ (fun fs hfs => ?_) entries (le_refl _)
            exact ih (sizeJsonFields fs) (by omega) fs a b (by omega) (by omega)
              (by omega)
          | null => rfl
          | bool _ => rfl
          | num _ => rfl
          | str _ => rfl
          | obj _ => rfl

/-- Calling the fuelled form with any sufficient fuel computes
`extractMessageFromBody`. -/
theorem extractF_eq_extract (fields : JsonFields) (fuel : Nat)
    (h : sizeJsonFields fields ≤ fuel) :
    extractF fuel fields = extractMessageFromBody fields :=
  extractF_stable (sizeJsonFields fields) fields fuel (sizeJsonFields fields)
    (le_refl _) h (le_refl _)

/-- `extractMessageFromBody` satisfies the source's recurrence: first
candidate keys, then the nested `error` object, then the `errors`
array. -/
theorem extractMessageFromBody_eq (fields : JsonFields) :
    extractMessageFromBody fields =
      match firstCandidateMessage fields with
      | some m => some m
      | none =>
        match nestedErrorMessage fields with
        | some m => some m
        | none => errorsArrayMessage fields := by
  have hpos := sizeJsonFields_pos fields
  show extractF (sizeJsonFields fields) fields = _
  obtain ⟨k, hk⟩ : ∃ k, sizeJsonFields fields = k + 1 :=
    ⟨sizeJsonFields fields - 1, by omega⟩
  rw [hk]
  simp only [extractF]
  cases firstCandidateMessage fields with
  | some m => rfl
  | none =>
    have hnested :
        (match lookupField fields "error" with
         | some (JsonValue.obj fs) => extractF k fs
         | _ => none) = nestedErrorMessage fields := by
      simp only [nestedErrorMessage]
      cases hl : lookupField fields "error" with
      | none => rfl
      | some v =>
        cases v with
        | obj fs =>
          have hsz := sizeJson_lt_of_lookupField fields "error" _ hl
          rw [hk] at hsz
          simp [sizeJson] at hsz
          exact extractF_eq_extract fs k (by omega)
        | null => rfl
        | bool _ => rfl
        | num _ => rfl
        | str _ => rfl
        | arr _ => rfl
    rw [hnested]
    cases nestedErrorMessage fields with
    | some m => rfl
    | none =>
      simp only [errorsArrayMessage]
      cases hl : lookupField fields "errors" with
      | none => rfl
      | some v =>
        cases v with
        | arr entries =>
          have hsz := sizeJson_lt_of_lookupField fields "errors" _ hl
          rw [hk] at hsz
          simp [sizeJson] at hsz
          refine walkErrorEntries_congr (sizeJsonArray entries)
            _ _ (fun fs hfs => ?_) entries (le_refl _)
          exact extractF_eq_extract fs k (by omega)
        | null => rfl
        | bool _ => rfl
        | num _ => rfl
        | str _ => rfl
        | obj _ => rfl

theorem jsTrimList_eq_rdrop (l : List Char) :
    jsTrimList l = List.rdropWhile isJsWhitespace (l.dropWhile isJsWhitespace) := rfl

theorem dropWhile_jsTrimList (l : List Char) :
    (jsTrimList l).dropWhile isJsWhitespace = jsTrimList l := by
  rw [jsTrimList_eq_rdrop]
  obtain ⟨t, ht⟩ :=
    List.rdropWhile_prefix isJsWhitespace (l.dropWhile isJsWhitespace)
  cases hT : List.rdropWhile isJsWhitespace (l.dropWhile isJsWhitespace) with
  | nil => rfl
  | cons c T =>
    have hself : (l.dropWhile isJsWhitespace).dropWhile isJsWhitespace
        = l.dropWhile isJsWhitespace :=
      List.dropWhile_idempotent isJsWhitespace l
    by_cases hc : isJsWhitespace c
    · exfalso
      rw [hT] at ht
      have hA : l.dropWhile isJsWhitespace = c :: (T ++ t) := by
        rw [← ht]
        simp
      rw [hA, List.dropWhile_cons_of_pos hc] at hself
      have hlen := congrArg List.length hself
      simp only [List.length_cons] at hlen
      have hle : (List.dropWhile isJsWhitespace (T ++ t)).length ≤ (T ++ t).length :=
        List.IsSuffix.length_le (List.dropWhile_suffix _)
      omega
    · exact List.dropWhile_cons_of_neg hc

theorem jsTrimList_idem (l : List Char) :
    jsTrimList (jsTrimList l) = jsTrimList l := by
  conv_lhs => rw [jsTrimList_eq_rdrop (jsTrimList l)]
  rw [dropWhile_jsTrimList, jsTrimList_eq_rdrop, List.rdropWhile_idempotent]

theorem jsTrim_idem (s : String) : jsTrim (jsTrim s) = jsTrim s := by
  show (⟨jsTrimList (jsTrimList s.data)⟩ : String) = ⟨jsTrimList s.data⟩
  rw [jsTrimList_idem]

theorem hasTextStr_jsTrim (s : String) : hasTextStr (jsTrim s) = hasTextStr s := by
  simp only [hasTextStr, jsTrim]
  rw [jsTrimList_idem]

theorem jsObjGet_set_self (m : List (String × String)) (k v : String) :
    jsObjGet (jsObjSet m k v) k = some v := by
  induction m with
  | nil => simp [jsObjSet, jsObjGet]
  | cons p rest ih =>
    obtain ⟨k0, v0⟩ := p
    by_cases hk : k0 = k
    · subst hk
      simp [jsObjSet, jsObjGet]
    · simp only [jsObjSet, if_neg hk, jsObjGet, List.find?_cons]
      simp only [jsObjGet] at ih
      simpa [hk] using ih

theorem jsObjGet_set_other (m : List (String × String)) (k v k' : String)
    (h : k' ≠ k) : jsObjGet (jsObjSet m k v) k' = jsObjGet m k' := by
  have h2 : ¬(k = k') := fun e => h e.symm
  induction m with
  | nil => simp [jsObjSet, jsObjGet, List.find?_cons, h2]
  | cons p rest ih =>
    obtain ⟨k0, v0⟩ := p
    by_cases hk : k0 = k
    · subst hk
      simp [jsObjSet, jsObjGet, List.find?_cons, h2]
    · by_cases hk0 : k0 = k'
      · subst hk0
        simp [jsObjSet, if_neg hk, jsObjGet, List.find?_cons]
      · simp only [jsObjSet, if_neg hk, jsObjGet, List.find?_cons]
        simp only [jsObjGet] at ih
        simpa [hk0] using ih

theorem jsObjGet_eq_none_of_not_mem (m : List (String × String)) (k : String)
    (h : k ∉ m.map Prod.fst) : jsObjGet m k = none := by
  induction m with
  | nil => rfl
  | cons p rest ih =>
    obtain ⟨k0, v0⟩ := p
    simp only [List.map_cons, List.mem_cons] at h
    push_neg at h
    have h1 : ¬(k0 = k) := fun e => h.1 e.symm
    simp only [jsObjGet, List.find?_cons]
    simp only [jsObjGet] at ih
    simpa [h1] using ih h.2

/-- Effect of spreading a unique-keyed record over a base object:
a key of the record gets the record's value, any other key keeps the
base object's value. -/
theorem jsObjGet_foldl_set (ds : List (String × String)) :
    ∀ (m : List (String × String)) (k : String),
      (ds.map Prod.fst).Nodup →
      jsObjGet (ds.foldl (fun acc kv => jsObjSet acc kv.1 kv.2) m) k =
        match jsObjGet ds k with
        | some v => some v
        | none => jsObjGet m k := by
  induction ds with
  | nil => intro m k _; rfl
  | cons p rest ih =>
    intro m k hnd
    obtain ⟨k0, v0⟩ := p
    simp only [List.map_cons, List.nodup_cons] at hnd
    simp only [List.foldl_cons]
    rw [ih (jsObjSet m k0 v0) k hnd.2]
    by_cases hk : k = k0
    · subst hk
      have hrest0 : jsObjGet rest k = none :=
        jsObjGet_eq_none_of_not_mem rest k hnd.1
      have hhead : jsObjGet ((k, v0) :: rest) k = some v0 := by
        simp [jsObjGet, List.find?_cons]
      rw [hrest0, hhead]
      simp [jsObjGet_set_self]
    · have hk0 : ¬(k0 = k) := fun e => hk e.symm
      have hhead : jsObjGet ((k0, v0) :: rest) k = jsObjGet rest k := by
        simp [jsObjGet, List.find?_cons, hk0]
      rw [hhead]
      cases jsObjGet rest k with
      | some v => rfl
      | none => simp [jsObjGet_set_other m k0 v0 k hk]

/-- C6: For every base URL input string (and for the default base URL when
none is supplied), the base URL stored at construction ends in exactly one
trailing separator: inputs with zero, one, or several trailing slashes all
normalize to a URL with exactly one trailing slash.  REFUTED for several
trailing slashes: the non-global `replace(/\/?$/, "/")` only touches the
final slash, so `"https://api.example.com//"` is stored unchanged with two
trailing slashes, while the function's own documentation promises exactly
one.  Zero- and one-slash inputs (and the default URL) do get exactly
one. -/
theorem c6_normalize_base_url_trailing_slashes :
    normalizeBaseUrl (some "https://api.example.com//") = "https://api.example.com//" ∧
    trailingSlashCount (normalizeBaseUrl (some "https://api.example.com//")) = 2 ∧
    (constructClient
      { apiKey := "key"
        dkim := some { domain := "example.com", selector := "sel", privateKey := "pk" }
        baseUrl := some "https://api.example.com//" }).map (fun c => c.baseUrl) =
      Except.ok "https://api.example.com//" ∧
    trailingSlashCount (normalizeBaseUrl none) = 1 ∧
    trailingSlashCount (normalizeBaseUrl (some "https://api.example.com")) = 1 ∧
    trailingSlashCount (normalizeBaseUrl (some "https://api.example.com/")) = 1 :=
  ⟨rfl, rfl, rfl, rfl, rfl, rfl⟩

theorem buildRequestHeaders_get_of_some (apiKey : String)
    (ds : List (String × String)) (idem : Option String) (key v : String)
    (hnd : (ds.map Prod.fst).Nodup) (hkey : jsObjGet ds key = some v)
    (hne : key ≠ "Idempotency-Key") :
    jsObjGet (buildRequestHeaders apiKey ds idem) key = some v := by
  have hmerged :
      jsObjGet (ds.foldl (fun m kv => jsObjSet m kv.1 kv.2)
        (builtinHeaders apiKey)) key = some v := by
    rw [jsObjGet_foldl_set ds (builtinHeaders apiKey) key hnd, hkey]
  show jsObjGet (match idem with
    | some k => if k ≠ "" then
        jsObjSet (ds.foldl (fun m kv => jsObjSet m kv.1 kv.2)
          (builtinHeaders apiKey)) "Idempotency-Key" k
      else ds.foldl (fun m kv => jsObjSet m kv.1 kv.2) (builtinHeaders apiKey)
    | none => ds.foldl (fun m kv => jsObjSet m kv.1 kv.2)
        (builtinHeaders apiKey)) key = some v
  cases idem with
  | none => exact hmerged
  | some k =>
    by_cases hk : k = ""
    · simp only [hk, ne_eq, not_true_eq_false, if_false]
      exact hmerged
    · simp only [ne_eq, hk, not_false_eq_true, if_true]
      rw [jsObjGet_set_other _ _ _ _ hne]
      exact hmerged

theorem buildRequestHeaders_get_of_none (apiKey : String)
    (ds : List (String × String)) (idem : Option String) (key : String)
    (hnd : (ds.map Prod.fst).Nodup) (hkey : jsObjGet ds key = none)
    (hne : key ≠ "Idempotency-Key") :
    jsObjGet (buildRequestHeaders apiKey ds idem) key =
      jsObjGet (builtinHeaders apiKey) key := by
  have hmerged :
      jsObjGet (ds.foldl (fun m kv => jsObjSet m kv.1 kv.2)
        (builtinHeaders apiKey)) key = jsObjGet (builtinHeaders apiKey) key := by
    rw [jsObjGet_foldl_set ds (builtinHeaders apiKey) key hnd, hkey]
  show jsObjGet (match idem with
    | some k => if k ≠ "" then
        jsObjSet (ds.foldl (fun m kv => jsObjSet m kv.1 kv.2)
          (builtinHeaders apiKey)) "Idempotency-Key" k
      else ds.foldl (fun m kv => jsObjSet m kv.1 kv.2) (builtinHeaders apiKey)
    | none => ds.foldl (fun m kv => jsObjSet m kv.1 kv.2)
        (builtinHeaders apiKey)) key = jsObjGet (builtinHeaders apiKey) key
  cases idem with
  | none => exact hmerged
  | some k =>
    by_cases hk : k = ""
    · simp only [hk, ne_eq, not_true_eq_false, if_false]
      exact hmerged
    · simp only [ne_eq, hk, not_false_eq_true, if_true]
      rw [jsObjGet_set_other _ _ _ _ hne]
      exact hmerged

/-- C10: configured default headers win key collisions against the
built-in request headers: a `defaultHeaders` key exactly equal to
`content-type` or `X-Api-Key` replaces the built-in JSON content type or
the API-key value; a differently-cased key such as `Content-Type` is
added alongside the built-in entry (both present); the per-call
`Idempotency-Key` header is written after the spread, so default headers
cannot override it. -/
theorem c10_default_headers_win_collisions (apiKey : String)
    (ds : List (String × String)) (idem : Option String)
    (hnd : (ds.map Prod.fst).Nodup) :
    (∀ v, jsObjGet ds "content-type" = some v →
      jsObjGet (buildRequestHeaders apiKey ds idem) "content-type" = some v) ∧
    (∀ v, jsObjGet ds "X-Api-Key" = some v →
      jsObjGet (buildRequestHeaders apiKey ds idem) "X-Api-Key" = some v) ∧
    (jsObjGet ds "content-type" = none →
      jsObjGet (buildRequestHeaders apiKey ds idem) "content-type" =
        some "application/json") ∧
    (∀ v, jsObjGet ds "Content-Type" = some v →
      jsObjGet ds "content-type" = none →
      jsObjGet (buildRequestHeaders apiKey ds idem) "Content-Type" = some v ∧
      jsObjGet (buildRequestHeaders apiKey ds idem) "content-type" =
        some "application/json") ∧
    (∀ k, idem = some k → k ≠ "" →
      jsObjGet (buildRequestHeaders apiKey ds idem) "Idempotency-Key" = some k) := by
  refine ⟨?_, ?_, ?_, ?_, ?_⟩
  · intro v hv
    exact buildRequestHeaders_get_of_some apiKey ds idem _ v hnd hv (by decide)
  · intro v hv
    exact buildRequestHeaders_get_of_some apiKey ds idem _ v hnd hv (by decide)
  · intro hnone
    rw [buildRequestHeaders_get_of_none apiKey ds idem _ hnd hnone (by decide)]
    rfl
  · intro v hv hnone
    refine ⟨buildRequestHeaders_get_of_some apiKey ds idem _ v hnd hv (by decide), ?_⟩
    rw [buildRequestHeaders_get_of_none apiKey ds idem _ hnd hnone (by decide)]
    rfl
  · intro k hidem hk
    subst hidem
    show jsObjGet (if k ≠ "" then
      jsObjSet (ds.foldl (fun m kv => jsObjSet m kv.1 kv.2)
        (builtinHeaders apiKey)) "Idempotency-Key" k
      else ds.foldl (fun m kv => jsObjSet m kv.1 kv.2) (builtinHeaders apiKey))
      "Idempotency-Key" = some k
    simp only [ne_eq, hk, not_false_eq_true, if_true]
    exact jsObjGet_set_self _ _ _

/-- Closed instance of `c10_default_headers_win_collisions`: defaults
`content-type: text/xml` and `Content-Type: text/html` with idempotency
key `key-123`. -/
theorem c10_default_headers_win_collisions_witness :
    jsObjGet (buildRequestHeaders "api-key"
      [("content-type", "text/xml")] (some "key-123")) "content-type" =
      some "text/xml" ∧
    jsObjGet (buildRequestHeaders "api-key"
      [("Content-Type", "text/html")] (some "key-123")) "Content-Type" =
      some "text/html" ∧
    jsObjGet (buildRequestHeaders "api-key"
      [("Content-Type", "text/html")] (some "key-123")) "content-type" =
      some "application/json" ∧
    jsObjGet (buildRequestHeaders "api-key"
      [("Idempotency-Key", "evil")] (some "key-123")) "Idempotency-Key" =
      some "key-123" := by
  have h1 := c10_default_headers_win_collisions "api-key"
    [("content-type", "text/xml")] (some "key-123") (by decide)
  have h2 := c10_default_headers_win_collisions "api-key"
    [("Content-Type", "text/html")] (some "key-123") (by decide)
  have h3 := c10_default_headers_win_collisions "api-key"
    [("Idempotency-Key", "evil")] (some "key-123")  (by decide)
  exact ⟨h1.1 "text/xml" (by decide),
    (h2.2.2.2.1 "text/html" (by decide) (by decide)).1,
    (h2.2.2.2.1 "text/html" (by decide) (by decide)).2,
    h3.2.2.2.2 "key-123" rfl (by decide)⟩

/-- C4: for every error response and every retry-after header value: a
value the integer parse accepts yields that integer clamped to
zero-or-greater; otherwise a value `Date.parse` accepts yields the
(ceiling-rounded) number of seconds from the current time until that
date, with a past (or present) date yielding 0; otherwise — including an
absent header — the retry hint is unset. -/
theorem c4_retry_after_parsing (dateParse : String → Option Int) (now : Int) :
    parseRetryAfterSeconds dateParse now none = none ∧
    (∀ v n, jsParseInt10 v = some n →
      parseRetryAfterSeconds dateParse now (some v) = some (max n 0)) ∧
    (∀ v t, v ≠ "" → jsParseInt10 v = none → dateParse v = some t → now < t →
      parseRetryAfterSeconds dateParse now (some v) =
        some ((t - now + 999) / 1000)) ∧
    (∀ v t, v ≠ "" → jsParseInt10 v = none → dateParse v = some t → t ≤ now →
      parseRetryAfterSeconds dateParse now (some v) = some 0) ∧
    (∀ v, jsParseInt10 v = none → dateParse v = none →
      parseRetryAfterSeconds dateParse now (some v) = none) := by
  refine ⟨rfl, ?_, ?_, ?_, ?_⟩
  · intro v n hv
    by_cases hev : v = ""
    · rw [hev] at hv
      rw [show jsParseInt10 "" = none from rfl] at hv
      cases hv
    · simp [parseRetryAfterSeconds, hev, hv]
  · intro v t hev hint hdate hlt
    simp only [parseRetryAfterSeconds, hev, if_false, hint, hdate]
    rw [if_pos (by omega)]
  · intro v t hev hint hdate hle
    simp only [parseRetryAfterSeconds, hev, if_false, hint, hdate]
    rw [if_neg (by omega)]
  · intro v hint hdate
    by_cases hev : v = ""
    · simp [parseRetryAfterSeconds, hev]
    · simp [parseRetryAfterSeconds, hev, hint, hdate]

/-- Closed instances of `c4_retry_after_parsing`: integer value `"120"`,
negative integer `"-7"`, a date 45 seconds ahead of `now = 1000` ms, a
past date, an unparseable value, and an absent header. -/
theorem c4_retry_after_parsing_witness :
    parseRetryAfterSeconds demoDateParse 1000 (some "120") = some 120 ∧
    parseRetryAfterSeconds demoDateParse 1000 (some "-7") = some 0 ∧
    parseRetryAfterSeconds demoDateParse 1000 (some "future-date") = some 45 ∧
    parseRetryAfterSeconds demoDateParse 1000 (some "past-date") = some 0 ∧
    parseRetryAfterSeconds demoDateParse 1000 (some "not-a-date") = none ∧
    parseRetryAfterSeconds demoDateParse 1000 none = none := by
  have h := c4_retry_after_parsing demoDateParse 1000
  refine ⟨?_, ?_, ?_, ?_, ?_, h.1⟩
  · exact h.2.1 "120" 120 (by decide)
  · exact h.2.1 "-7" (-7) (by decide)
  · exact h.2.2.1 "future-date" 46000 (by decide) (by decide) rfl (by decide)
  · exact h.2.2.2.1 "past-date" (-5) (by decide) (by decide) rfl (by decide)
  · exact h.2.2.2.2 "not-a-date" (by decide) rfl

/-- C1: for every non-2xx response whose body parses as a JSON object, the
error message is derived by searching the top-level candidate keys
`message`, `error_description`, `detail`, `error` in order (first
non-blank string value wins, trimmed), then a nested `error` object
recursively, then each element of an `errors` array in order; when no
message is found, the trimmed raw body text is used when non-blank, and
otherwise the fallback message naming the status.  The two spec examples
evaluate as stated. -/
theorem c1_error_message_derivation (status : Nat) (statusText : Option String)
    (fields : JsonFields) (rawText : String) :
    (∀ m, firstCandidateMessage fields = some m →
      deriveErrorMessage status statusText (some (JsonValue.obj fields)) rawText = m) ∧
    (firstCandidateMessage fields = none →
      ∀ m, nestedErrorMessage fields = some m →
        deriveErrorMessage status statusText (some (JsonValue.obj fields)) rawText = m) ∧
    (firstCandidateMessage fields = none → nestedErrorMessage fields = none →
      ∀ m, errorsArrayMessage fields = some m →
        deriveErrorMessage status statusText (some (JsonValue.obj fields)) rawText = m) ∧
    (extractMessageFromBody fields = none → hasTextStr rawText = true →
      deriveErrorMessage status statusText (some (JsonValue.obj fields)) rawText =
        jsTrim rawText) ∧
    (extractMessageFromBody fields = none → hasTextStr rawText = false →
      deriveErrorMessage status statusText (some (JsonValue.obj fields)) rawText =
        fallbackMessage status statusText) ∧
    deriveErrorMessage 400 (some "Bad Request") (some errorsWalkExampleBody)
      "\x7b\"errors\":[\"   \"]\x7d" = "final message" ∧
    deriveErrorMessage 409 (some "Conflict") (some emptyErrorsExampleBody)
      "\x7b\"errors\":[]\x7d" = "\x7b\"errors\":[]\x7d" := by
  have hstep : deriveErrorMessage status statusText
      (some (JsonValue.obj fields)) rawText =
      match extractMessageFromBody fields with
      | some m => m
      | none =>
        if hasTextStr rawText then jsTrim rawText
        else fallbackMessage status statusText := rfl
  refine ⟨?_, ?_, ?_, ?_, ?_, rfl, rfl⟩
  · intro m hm
    have hx : extractMessageFromBody fields = some m := by
      rw [extractMessageFromBody_eq, hm]
    rw [hstep, hx]
  · intro hfc m hm
    have hx : extractMessageFromBody fields = some m := by
      rw [extractMessageFromBody_eq, hfc, hm]
    rw [hstep, hx]
  · intro hfc hne m hm
    have hx : extractMessageFromBody fields = some m := by
      rw [extractMessageFromBody_eq, hfc, hne, hm]
    rw [hstep, hx]
  · intro hext hraw
    rw [hstep, hext]
    simp [hraw]
  · intro hext hraw
    rw [hstep, hext]
    simp [hraw]

/-- Closed instances of `c1_error_message_derivation`: a top-level
candidate-key hit (trimmed), the raw-text fallback, and the generic
fallback on a blank body. -/
theorem c1_error_message_derivation_witness :
    deriveErrorMessage 500 (some "Internal Server Error")
      (some (JsonValue.obj (.cons "message" (JsonValue.str " boom ") .nil)))
      "" = "boom" ∧
    deriveErrorMessage 503 none (some (JsonValue.obj .nil))
      "  raw text  " = "raw text" ∧
    deriveErrorMessage 503 (some "Service Unavailable")
      (some (JsonValue.obj .nil)) "   " =
      "MailChannels request failed with 503 Service Unavailable" := by
  have h1 := c1_error_message_derivation 500 (some "Internal Server Error")
    (.cons "message" (JsonValue.str " boom ") .nil) ""
  have h2 := c1_error_message_derivation 503 none JsonFields.nil "  raw text  "
  have h3 := c1_error_message_derivation 503 (some "Service Unavailable")
    JsonFields.nil "   "
  exact ⟨h1.1 "boom" rfl, h2.2.2.2.1 rfl rfl, h3.2.2.2.2.1 rfl rfl⟩

/-- C5 as stated is REFUTED at body `\x7b"id":""\x7d`: the body is an
object containing a string `id` field, yet the result surfaces no `id`
(the source tests the value's truthiness, and `""` is falsy), and the
whole object is surfaced as `data` even though it has no keys beyond
`id`. -/
theorem c5_success_result_counterexample :
    lookupField emptyIdBody "id" = some (JsonValue.str "") ∧
    countFields emptyIdBody = 1 ∧
    (buildSuccessResult 200 (some (JsonValue.obj emptyIdBody))
      "\x7b\"id\":\"\"\x7d").id = none ∧
    (buildSuccessResult 200 (some (JsonValue.obj emptyIdBody))
      "\x7b\"id\":\"\"\x7d").data =
      some (ResponseData.json (JsonValue.obj emptyIdBody)) :=
  ⟨rfl, rfl, rfl, rfl⟩

/-- C5 (amended): for every success response: if the parsed JSON body is
an object containing a *non-empty* string `id` field, that value is
surfaced as the result's `id`, and the whole object is surfaced as `data`
exactly when it has keys beyond `id`; when the `id` field is absent, the
empty string, or not a string, no `id` is surfaced and the object is
surfaced as `data` exactly when it has any keys; a non-JSON but non-empty
body is surfaced as raw-text `data`; an empty body yields no `data`.  The
two spec examples evaluate as stated. -/
theorem c5_success_result_shape (status : Nat) (fields : JsonFields)
    (rawText : String) :
    (∀ s, lookupField fields "id" = some (JsonValue.str s) → s ≠ "" →
      buildSuccessResult status (some (JsonValue.obj fields)) rawText =
        { status := status
          id := some s
          data := if 1 < countFields fields then
              some (ResponseData.json (JsonValue.obj fields))
            else none }) ∧
    (lookupField fields "id" = some (JsonValue.str "") →
      buildSuccessResult status (some (JsonValue.obj fields)) rawText =
        { status := status
          id := none
          data := if 0 < countFields fields then
              some (ResponseData.json (JsonValue.obj fields))
            else none }) ∧
    (lookupField fields "id" = none →
      buildSuccessResult status (some (JsonValue.obj fields)) rawText =
        { status := status
          id := none
          data := if 0 < countFields fields then
              some (ResponseData.json (JsonValue.obj fields))
            else none }) ∧
    (∀ v, lookupField fields "id" = some v → isStringValue v = false →
      buildSuccessResult status (some (JsonValue.obj fields)) rawText =
        { status := status
          id := none
          data := if 0 < countFields fields then
              some (ResponseData.json (JsonValue.obj fields))
            else none }) ∧
    (rawText ≠ "" →
      buildSuccessResult status none rawText =
        { status := status, id := none, data := some (ResponseData.text rawText) }) ∧
    buildSuccessResult status none "" =
      { status := status, id := none, data := none } ∧
    buildSuccessResult 202 (some (JsonValue.obj
        (.cons "id" (JsonValue.str "message-id")
          (.cons "ok" (JsonValue.bool true) .nil)))) "" =
      { status := 202
        id := some "message-id"
        data := some (ResponseData.json (JsonValue.obj
          (.cons "id" (JsonValue.str "message-id")
            (.cons "ok" (JsonValue.bool true) .nil)))) } ∧
    buildSuccessResult 202 (some (JsonValue.obj
        (.cons "id" (JsonValue.str "x") .nil))) "" =
      { status := 202, id := some "x", data := none } := by
  refine ⟨?_, ?_, ?_, ?_, ?_, rfl, rfl, rfl⟩
  · intro s hid hs
    simp [buildSuccessResult, hid, hs]
  · intro hid
    simp [buildSuccessResult, hid]
  · intro hid
    simp [buildSuccessResult, hid]
  · intro v hid hv
    cases v <;> simp [isStringValue] at hv <;> simp [buildSuccessResult, hid]
  · intro hraw
    simp [buildSuccessResult, hraw]

/-- Closed instances of `c5_success_result_shape`: a non-empty `id` with
an extra key, a lone non-empty `id`, a missing `id`, and a non-JSON
body. -/
theorem c5_success_result_shape_witness :
    buildSuccessResult 202 (some (JsonValue.obj
        (.cons "id" (JsonValue.str "message-id")
          (.cons "ok" (JsonValue.bool true) .nil)))) "" =
      { status := 202
        id := some "message-id"
        data := some (ResponseData.json (JsonValue.obj
          (.cons "id" (JsonValue.str "message-id")
            (.cons "ok" (JsonValue.bool true) .nil)))) } ∧
    buildSuccessResult 202 (some (JsonValue.obj
        (.cons "id" (JsonValue.str "x") .nil))) "" =
      { status := 202, id := some "x", data := none } ∧
    buildSuccessResult 200 none "success" =
      { status := 200, id := none, data := some (ResponseData.text "success") } := by
  have h1 := c5_success_result_shape 202
    (.cons "id" (JsonValue.str "message-id")
      (.cons "ok" (JsonValue.bool true) .nil)) ""
  have h2 := c5_success_result_shape 202 (.cons "id" (JsonValue.str "x") .nil) ""
  have h3 := c5_success_result_shape 200 JsonFields.nil "success"
  refine ⟨?_, ?_, h3.2.2.2.2.1 (by decide)⟩
  · have := h1.1 "message-id" rfl (by decide)
    rw [this]
    rfl
  · have := h2.1 "x" rfl (by decide)
    rw [this]
    rfl

theorem resolvesDkim_select (own : Option String) (fallback : String) :
    resolvesDkim own fallback (some (selectDkimValue own fallback)) := by
  refine ⟨?_, ?_, ?_⟩
  · intro s hs ht
    rw [hs]
    simp [selectDkimValue, ht]
  · intro s hs ht
    rw [hs]
    simp [selectDkimValue, ht]
  · intro hn
    rw [hn]
    simp [selectDkimValue]

/-- C2: for every client DKIM config and every send payload, each
body-level DKIM field of the merged payload is resolved independently —
the request's own field trimmed when it is a non-blank string, else the
client default — and each personalization's DKIM field is that
personalization's own field trimmed when non-blank, else the
already-resolved body-level value (never the client default directly). -/
theorem c2_dkim_merge_resolution (dkim : DkimConfig) (payload : SendEmailRequest) :
    resolvesDkim payload.dkim_domain dkim.domain
      (applyDkimDefaults dkim payload).dkim_domain ∧
    resolvesDkim payload.dkim_selector dkim.selector
      (applyDkimDefaults dkim payload).dkim_selector ∧
    resolvesDkim payload.dkim_private_key dkim.privateKey
      (applyDkimDefaults dkim payload).dkim_private_key ∧
    (∀ (i : Nat) (pz q : Personalization),
      payload.personalizations.get? i = some pz →
      (applyDkimDefaults dkim payload).personalizations.get? i = some q →
      (∀ bd, (applyDkimDefaults dkim payload).dkim_domain = some bd →
        resolvesDkim pz.dkim_domain bd q.dkim_domain) ∧
      (∀ bs, (applyDkimDefaults dkim payload).dkim_selector = some bs →
        resolvesDkim pz.dkim_selector bs q.dkim_selector) ∧
      (∀ bk, (applyDkimDefaults dkim payload).dkim_private_key = some bk →
        resolvesDkim pz.dkim_private_key bk q.dkim_private_key)) := by
  refine ⟨resolvesDkim_select _ _, resolvesDkim_select _ _,
    resolvesDkim_select _ _, ?_⟩
  intro i pz q hp hq
  have hmap : (applyDkimDefaults dkim payload).personalizations.get? i =
      (payload.personalizations.get? i).map fun personalization =>
        { personalization with
          dkim_domain := some (selectDkimValue personalization.dkim_domain
            (selectDkimValue payload.dkim_domain dkim.domain))
          dkim_selector := some (selectDkimValue personalization.dkim_selector
            (selectDkimValue payload.dkim_selector dkim.selector))
          dkim_private_key := some (selectDkimValue personalization.dkim_private_key
            (selectDkimValue payload.dkim_private_key dkim.privateKey)) } :=
    List.get?_map _ _ _
  rw [hmap, hp] at hq
  simp only [Option.map_some'] at hq
  obtain rfl :
      q = { pz with
        dkim_domain := some (selectDkimValue pz.dkim_domain
          (selectDkimValue payload.dkim_domain dkim.domain))
        dkim_selector := some (selectDkimValue pz.dkim_selector
          (selectDkimValue payload.dkim_selector dkim.selector))
        dkim_private_key := some (selectDkimValue pz.dkim_private_key
          (selectDkimValue payload.dkim_private_key dkim.privateKey)) } :=
    (Option.some.injEq _ _ ▸ hq).symm
  refine ⟨?_, ?_, ?_⟩
  · intro bd hbd
    have : bd = selectDkimValue payload.dkim_domain dkim.domain := by
      have : (applyDkimDefaults dkim payload).dkim_domain =
          some (selectDkimValue payload.dkim_domain dkim.domain) := rfl
      rw [this] at hbd
      exact (Option.some.injEq _ _ ▸ hbd).symm
    rw [this]
    exact resolvesDkim_select _ _
  · intro bs hbs
    have : bs = selectDkimValue payload.dkim_selector dkim.selector := by
      have : (applyDkimDefaults dkim payload).dkim_selector =
          some (selectDkimValue payload.dkim_selector dkim.selector) := rfl
      rw [this] at hbs
      exact (Option.some.injEq _ _ ▸ hbs).symm
    rw [this]
    exact resolvesDkim_select _ _
  · intro bk hbk
    have : bk = selectDkimValue payload.dkim_private_key dkim.privateKey := by
      have : (applyDkimDefaults dkim payload).dkim_private_key =
          some (selectDkimValue payload.dkim_private_key dkim.privateKey) := rfl
      rw [this] at hbk
      exact (Option.some.injEq _ _ ▸ hbk).symm
    rw [this]
    exact resolvesDkim_select _ _

/-- Closed instances of `c2_dkim_merge_resolution` on `demoPayload`: the
body level falls back to the client defaults, personalization 1's padded
overrides win trimmed, personalization 0 inherits the body-level
values. -/
theorem c2_dkim_merge_resolution_witness :
    (applyDkimDefaults demoDkim demoPayload).dkim_domain = some "example.com" ∧
    (applyDkimDefaults demoDkim demoPayload).personalizations.get? 1 =
      some demoMergedPz1 ∧
    demoMergedPz1.dkim_domain = some "override.example.com" ∧
    ((applyDkimDefaults demoDkim demoPayload).personalizations.get? 0).map
      (fun q => q.dkim_domain) = some (some "example.com") := by
  have h := c2_dkim_merge_resolution demoDkim demoPayload
  refine ⟨h.1.2.2 rfl, rfl, ?_, ?_⟩
  · have h5 := h.2.2.2 1 demoPz1 demoMergedPz1 rfl rfl
    have h6 := (h5.1 "example.com" (h.1.2.2 rfl)).1 " override.example.com " rfl rfl
    rw [h6]
    rfl
  · have h5 := h.2.2.2 0 demoPz0
      { demoPz0 with
        dkim_domain := some "example.com"
        dkim_selector := some "default-selector"
        dkim_private_key := some "default-private-key" } rfl rfl
    have h6 := (h5.1 "example.com" (h.1.2.2 rfl)).2.2 rfl
    exact Option.map_eq_some'.mpr
      ⟨{ demoPz0 with
          dkim_domain := some "example.com"
          dkim_selector := some "default-selector"
          dkim_private_key := some "default-private-key" }, rfl, h6⟩

theorem jsTrim_selectDkimValue (v : Option String) (d : String)
    (hd : jsTrim d = d) : jsTrim (selectDkimValue v d) = selectDkimValue v d := by
  cases v with
  | none => exact hd
  | some s =>
    by_cases hs : hasTextStr s
    · simp [selectDkimValue, hs, jsTrim_idem]
    · simp [selectDkimValue, hs, hd]

theorem selectDkimValue_absorb (v : Option String) (d : String)
    (hd : jsTrim d = d) :
    selectDkimValue (some (selectDkimValue v d)) d = selectDkimValue v d := by
  cases v with
  | none =>
    show selectDkimValue (some d) d = d
    by_cases hdt : hasTextStr d <;> simp [selectDkimValue, hdt, hd]
  | some s =>
    by_cases hs : hasTextStr s
    · show selectDkimValue (some (selectDkimValue (some s) d)) d = _
      simp only [selectDkimValue, hs, if_true]
      simp [hasTextStr_jsTrim, hs, jsTrim_idem]
    · show selectDkimValue (some (selectDkimValue (some s) d)) d = _
      simp only [selectDkimValue, hs, if_false]
      by_cases hdt : hasTextStr d <;> simp [hdt, hd]

theorem hasTextStr_selectDkimValue (v : Option String) (d : String)
    (hd : hasTextStr d = true) : hasTextStr (selectDkimValue v d) = true := by
  cases v with
  | none => exact hd
  | some s =>
    by_cases hs : hasTextStr s
    · simp [selectDkimValue, hs, hasTextStr_jsTrim]
    · simp [selectDkimValue, hs, hd]

/-- C9: the DKIM merge is idempotent: with the client config as the
constructor stores it (each field trimmed and non-blank), merging an
already-merged payload returns it unchanged, and the merged output
carries no blank DKIM field at body or personalization level. -/
theorem c9_dkim_merge_idempotent (dkim : DkimConfig) (payload : SendEmailRequest)
    (hdomt : jsTrim dkim.domain = dkim.domain)
    (hselt : jsTrim dkim.selector = dkim.selector)
    (hkeyt : jsTrim dkim.privateKey = dkim.privateKey)
    (hdomn : hasTextStr dkim.domain = true)
    (hseln : hasTextStr dkim.selector = true)
    (hkeyn : hasTextStr dkim.privateKey = true) :
    applyDkimDefaults dkim (applyDkimDefaults dkim payload) =
      applyDkimDefaults dkim payload ∧
    hasTextOpt (applyDkimDefaults dkim payload).dkim_domain = true ∧
    hasTextOpt (applyDkimDefaults dkim payload).dkim_selector = true ∧
    hasTextOpt (applyDkimDefaults dkim payload).dkim_private_key = true ∧
    (∀ (i : Nat) (q : Personalization),
      (applyDkimDefaults dkim payload).personalizations.get? i = some q →
      hasTextOpt q.dkim_domain = true ∧ hasTextOpt q.dkim_selector = true ∧
      hasTextOpt q.dkim_private_key = true) := by
  refine ⟨?_, ?_, ?_, ?_, ?_⟩
  · obtain ⟨ps, fa, rt, sub, co, he, at_, dd, ds, dk, ex⟩ := payload
    simp only [applyDkimDefaults, List.map_map]
    rw [selectDkimValue_absorb dd dkim.domain hdomt,
      selectDkimValue_absorb ds dkim.selector hselt,
      selectDkimValue_absorb dk dkim.privateKey hkeyt]
    congr 1
    apply List.map_congr_left
    intro pz _
    obtain ⟨pto, pcc, pbcc, psub, phe, pdd, pdk, pds, ptd⟩ := pz
    simp only [Function.comp]
    congr 1
    · exact congrArg some
        (selectDkimValue_absorb pdd _ (jsTrim_selectDkimValue dd dkim.domain hdomt))
    · exact congrArg some
        (selectDkimValue_absorb pdk _ (jsTrim_selectDkimValue dk dkim.privateKey hkeyt))
    · exact congrArg some
        (selectDkimValue_absorb pds _ (jsTrim_selectDkimValue ds dkim.selector hselt))
  · exact hasTextStr_selectDkimValue payload.dkim_domain dkim.domain hdomn
  · exact hasTextStr_selectDkimValue payload.dkim_selector dkim.selector hseln
  · exact hasTextStr_selectDkimValue payload.dkim_private_key dkim.privateKey hkeyn
  · intro i q hq
    rw [show (applyDkimDefaults dkim payload).personalizations =
      payload.personalizations.map (fun personalization =>
        { personalization with
          dkim_domain := some (selectDkimValue personalization.dkim_domain
            (selectDkimValue payload.dkim_domain dkim.domain))
          dkim_selector := some (selectDkimValue personalization.dkim_selector
            (selectDkimValue payload.dkim_selector dkim.selector))
          dkim_private_key := some (selectDkimValue personalization.dkim_private_key
            (selectDkimValue payload.dkim_private_key dkim.privateKey)) }) from rfl,
      List.get?_map] at hq
    cases hp : payload.personalizations.get? i with
    | none => rw [hp] at hq; cases hq
    | some pz =>
      rw [hp] at hq
      simp only [Option.map_some'] at hq
      obtain rfl := (Option.some.injEq _ _ ▸ hq).symm
      exact ⟨hasTextStr_selectDkimValue _ _
          (hasTextStr_selectDkimValue _ _ hdomn),
        hasTextStr_selectDkimValue _ _
          (hasTextStr_selectDkimValue _ _ hseln),
        hasTextStr_selectDkimValue _ _
          (hasTextStr_selectDkimValue _ _ hkeyn)⟩

/-- Closed instance of `c9_dkim_merge_idempotent` on `demoPayload`. -/
theorem c9_dkim_merge_idempotent_witness :
    applyDkimDefaults demoDkim (applyDkimDefaults demoDkim demoPayload) =
      applyDkimDefaults demoDkim demoPayload ∧
    hasTextOpt (applyDkimDefaults demoDkim demoPayload).dkim_domain = true := by
  have h := c9_dkim_merge_idempotent demoDkim demoPayload rfl rfl rfl rfl rfl rfl
  exact ⟨h.1, h.2.1⟩

/-- C3: for every payload and send options, when the DKIM-merged payload
passes structural validation, `sendEmail` invokes the injected transport
exactly once; when validation fails, `sendEmail` returns the validation
error synchronously and invokes the transport zero times. -/
theorem c3_send_email_transport_invocations
    (jsonParse : String → Option JsonValue) (dateParse : String → Option Int)
    (now : Int) (client : ClientState) (payload : SendEmailRequest)
    (options : SendEmailOptions)
    (transport : TransportRequest → TransportResponse) :
    (validateSendRequest (applyDkimDefaults client.dkim payload) = Except.ok () →
      (sendEmail jsonParse dateParse now client payload options transport).2 = 1) ∧
    (∀ e, validateSendRequest (applyDkimDefaults client.dkim payload) =
        Except.error e →
      (sendEmail jsonParse dateParse now client payload options transport).2 = 0 ∧
      (sendEmail jsonParse dateParse now client payload options transport).1 =
        Except.error (SendFailure.validation e)) := by
  constructor
  · intro hok
    simp only [sendEmail, hok]
    split <;> split <;> rfl
  · intro e herr
    refine ⟨?_, ?_⟩ <;> simp [sendEmail, herr]

/-- Closed instances of `c3_send_email_transport_invocations`: the valid
demo payload drives exactly one transport call; the invalid one drives
none and surfaces the validation error. -/
theorem c3_send_email_transport_invocations_witness :
    (sendEmail demoJsonParse demoDateParse 1000 demoClient demoPayload {}
      demoTransport).2 = 1 ∧
    (sendEmail demoJsonParse demoDateParse 1000 demoClient demoInvalidPayload {}
      demoTransport).2 = 0 ∧
    (sendEmail demoJsonParse demoDateParse 1000 demoClient demoInvalidPayload {}
      demoTransport).1 =
      Except.error (SendFailure.validation
        "`personalizations` must contain at least one recipient block.") := by
  have h1 := c3_send_email_transport_invocations demoJsonParse demoDateParse 1000
    demoClient demoPayload {} demoTransport
  have h2 := c3_send_email_transport_invocations demoJsonParse demoDateParse 1000
    demoClient demoInvalidPayload {} demoTransport
  have h2e := h2.2 "`personalizations` must contain at least one recipient block." rfl
  exact ⟨h1.1 rfl, h2e.1, h2e.2⟩

theorem exceptBind_ok {ε α β : Type} (x : Except ε α) (f : α → Except ε β)
    (u : β) (h : x >>= f = Except.ok u) :
    ∃ v, x = Except.ok v ∧ f v = Except.ok u := by
  cases x with
  | error e => simp [Bind.bind, Except.bind] at h
  | ok v => exact ⟨v, rfl, by simpa [Bind.bind, Except.bind] using h⟩

theorem validateEachFrom_ok {α : Type} (check : Nat → α → Except String Unit) :
    ∀ (n : Nat) (l : List α), validateEachFrom check n l = Except.ok () →
      ∀ a ∈ l, ∃ i, check i a = Except.ok () := by
  intro n l
  induction l generalizing n with
  | nil => intro _ a ha; cases ha
  | cons x rest ih =>
    intro h a ha
    simp only [validateEachFrom] at h
    obtain ⟨v, hx, hrest⟩ := exceptBind_ok _ _ _ h
    cases List.mem_cons.mp ha with
    | inl he => exact ⟨n, by cases v; rw [← he] at hx; exact hx⟩
    | inr hmem => exact ih (n + 1) hrest a hmem

/-- A structurally accepted payload had every attachment accepted by
`validateAttachment`. -/
theorem validateSendRequest_ok_attachments (payload : SendEmailRequest)
    (atts : List Attachment) (hatts : payload.attachments = some atts)
    (h : validateSendRequest payload = Except.ok ()) :
    validateEachFrom (fun i a => validateAttachment a i) 0 atts = Except.ok () := by
  simp only [validateSendRequest] at h
  obtain ⟨_, _, h⟩ := exceptBind_ok _ _ _ h
  obtain ⟨_, _, h⟩ := exceptBind_ok _ _ _ h
  obtain ⟨_, _, h⟩ := exceptBind_ok _ _ _ h
  obtain ⟨_, _, h⟩ := exceptBind_ok _ _ _ h
  obtain ⟨_, _, h⟩ := exceptBind_ok _ _ _ h
  obtain ⟨_, _, h⟩ := exceptBind_ok _ _ _ h
  obtain ⟨v, hstage, _⟩ := exceptBind_ok _ _ _ h
  cases v
  rw [hatts] at hstage
  exact hstage

/-- C8 as stated is REFUTED: `" "` is blank (empty after trimming), yet an
attachment whose `type` is `" "` passes `validateAttachment` — and the
whole payload passes `validateSendRequest` — because the source only
tests JavaScript falsiness (`!attachment.type`) and the `typeof` check,
not blankness. -/
theorem c8_attachment_blank_counterexample :
    jsTrim " " = "" ∧
    validateAttachment
      { type := some " ", filename := some "f.txt", content := some "YQ==" } 0 =
      Except.ok () ∧
    validateSendRequest (applyDkimDefaults demoDkim wsAttachmentPayload) =
      Except.ok () :=
  ⟨rfl, rfl, rfl⟩

/-- C8 (amended): for every payload carrying an attachments array,
validation fails with a path-qualified message naming the attachment
field exactly when some attachment's `type`, `filename`, or `content` is
absent, not a string, or the *empty* string; a whitespace-only string
such as `" "` is accepted as non-empty.  Consequently a payload accepted
by `validateSendRequest` has every attachment field present and
non-empty (though possibly blank after trimming). -/
theorem c8_attachment_blank_validation (i : Nat) (a : Attachment) :
    (validateAttachment a i = Except.ok () ↔
      a.type ≠ none ∧ a.type ≠ some "" ∧ a.filename ≠ none ∧
      a.filename ≠ some "" ∧ a.content ≠ none ∧ a.content ≠ some "") ∧
    (∀ s, hasTextStr s = false → s ≠ "" →
      validateAttachment { type := some s, filename := some s, content := some s }
        i = Except.ok ()) ∧
    (∀ (payload : SendEmailRequest) (atts : List Attachment),
      payload.attachments = some atts →
      validateSendRequest payload = Except.ok () →
      ∀ a' ∈ atts, a'.type ≠ none ∧ a'.type ≠ some "" ∧ a'.filename ≠ none ∧
        a'.filename ≠ some "" ∧ a'.content ≠ none ∧ a'.content ≠ some "") := by
  have hiff : ∀ (j : Nat) (b : Attachment),
      validateAttachment b j = Except.ok () ↔
        b.type ≠ none ∧ b.type ≠ some "" ∧ b.filename ≠ none ∧
        b.filename ≠ some "" ∧ b.content ≠ none ∧ b.content ≠ some "" := by
    intro j b
    obtain ⟨t, f, c⟩ := b
    simp only [validateAttachment]
    cases t <;> cases f <;> cases c <;>
      simp [Bind.bind, Except.bind] <;> split_ifs <;> simp_all
  refine ⟨hiff i a, ?_, ?_⟩
  · intro s _ hs
    exact (hiff i _).mpr (by simp [hs])
  · intro payload atts hatts hok a' ha'
    obtain ⟨j, hj⟩ := validateEachFrom_ok _ 0 atts
      (validateSendRequest_ok_attachments payload atts hatts hok) a' ha'
    exact (hiff j a').mp hj

/-- Closed instances of `c8_attachment_blank_validation`: the
whitespace-only attachment type is accepted; an empty filename is
rejected with the path-qualified message. -/
theorem c8_attachment_blank_validation_witness :
    validateAttachment { type := some " ", filename := some " ", content := some " " }
      0 = Except.ok () ∧
    validateAttachment { type := some "text/plain", filename := some "", content := some "YQ==" }
      0 ≠ Except.ok () := by
  have h := c8_attachment_blank_validation 0
    { type := some "text/plain", filename := some "", content := some "YQ==" }
  have h2 := c8_attachment_blank_validation 0
    { type := some " ", filename := some " ", content := some " " }
  refine ⟨h2.2.1 " " rfl (by decide), fun hok => ?_⟩
  have := (h.1.mp hok).2.2.2.1
  exact this rfl

/-- C7 as stated is REFUTED: the constructor stores `options.apiKey`
verbatim (client.ts line 419) while it trims the DKIM triple, so a padded
API key is kept padded — not equal to its trimmed form. -/
theorem c7_api_key_trim_counterexample :
    (constructClient
      { apiKey := " secret-key "
        dkim := some { domain := "example.com", selector := "sel",
                       privateKey := "pk" } }).map (fun c => c.apiKey) =
      Except.ok " secret-key " ∧
    jsTrim " secret-key " = "secret-key" ∧
    (" secret-key " : String) ≠ "secret-key" :=
  ⟨rfl, rfl, by decide⟩

/-- C7 (amended): construction validates that the API key is non-blank
but stores it verbatim, untrimmed; the X-Api-Key header attached to every
outbound request therefore equals the input API key unchanged (when the
configured default headers do not override that exact key). -/
theorem c7_api_key_stored_verbatim (options : MailChannelsClientOptions)
    (client : ClientState) (h : constructClient options = Except.ok client) :
    client.apiKey = options.apiKey ∧
    (∀ idem, (client.defaultHeaders.map Prod.fst).Nodup →
      jsObjGet client.defaultHeaders "X-Api-Key" = none →
      jsObjGet (buildRequestHeaders client.apiKey client.defaultHeaders idem)
        "X-Api-Key" = some options.apiKey) := by
  have hkey : client.apiKey = options.apiKey := by
    simp only [constructClient] at h
    obtain ⟨_, _, h⟩ := exceptBind_ok _ _ _ h
    cases hd : options.dkim with
    | none => rw [hd] at h; cases h
    | some dkim =>
      rw [hd] at h
      obtain ⟨_, _, h⟩ := exceptBind_ok _ _ _ h
      obtain ⟨_, _, h⟩ := exceptBind_ok _ _ _ h
      obtain ⟨_, _, h⟩ := exceptBind_ok _ _ _ h
      obtain ⟨_, _, h⟩ := exceptBind_ok _ _ _ h
      have := (Except.ok.injEq _ _).mp h
      rw [← this]
  refine ⟨hkey, ?_⟩
  intro idem hnd hnone
  rw [buildRequestHeaders_get_of_none client.apiKey client.defaultHeaders idem
    "X-Api-Key" hnd hnone (by decide)]
  simp [builtinHeaders, jsObjGet, List.find?_cons, hkey]

/-- Closed instance of `c7_api_key_stored_verbatim` on `demoOptions`. -/
theorem c7_api_key_stored_verbatim_witness :
    demoConstructed.apiKey = " secret-key " ∧
    jsObjGet (buildRequestHeaders demoConstructed.apiKey
      demoConstructed.defaultHeaders none) "X-Api-Key" = some " secret-key " := by
  have h := c7_api_key_stored_verbatim demoOptions demoConstructed rfl
  exact ⟨h.1, h.2 none (by decide) rfl⟩
